import Mathlib

/-!
Verification development for the danos AAA plugin loader (Go package `aaa`).

The embedding below models the latest-generation loader (the unified design:
`lookupPluginImpl`, `loadAAAPlugin`, `LoadAAA` with the lifecycle guard).
Effectful boundaries (the filesystem, the JSON decoder, the dynamic-module
loader) are modelled as an explicit environment value `Env`: the directory
listing, the per-path config-file read outcome, and the per-path plugin-module
open outcome.  The loader itself is translated statement by statement.
-/

namespace DanosAAA

/-- `const AAAPluginsCfgDir = "/etc/aaa-plugins/"` -/
def AAAPluginsCfgDir : String := "/etc/aaa-plugins/"

/-- `const AAAPluginsDir = "/usr/lib/aaa-plugins/"` -/
def AAAPluginsDir : String := "/usr/lib/aaa-plugins/"

/-- `aaaPluginAPIVersionSym = "AAAPluginAPIVersion"` -/
def aaaPluginAPIVersionSym : String := "AAAPluginAPIVersion"

/-- `fmt.Sprintf(aaaPluginImplSymFmt, ver)` with `aaaPluginImplSymFmt = "AAAPluginV%d"`. -/
def aaaPluginImplSym (ver : Nat) : String := "AAAPluginV" ++ Nat.repr ver

/-- `AAAPluginAPIVersion = 2`, the single host-supported ABI version. -/
def AAAPluginAPIVersion : Nat := 2

/-- `AAAPluginConfig`: the decoded JSON descriptor
(`command-accounting`, `command-authorization`, `name`). -/
structure AAAPluginConfig where
  cmdAcct : Bool
  cmdAuthor : Bool
  name : String
deriving DecidableEq, Repr

/-- Outcome of a plugin's `Setup()` call: a nil error, an ordinary error
return, or an abnormal runtime fault raised inside the call. -/
inductive SetupOutcome where
  | ok : SetupOutcome
  | fail : String → SetupOutcome
  | fault : String → SetupOutcome
deriving DecidableEq, Repr

/-- An object satisfying the `AAAPlugin` capability interface.  Only the
behaviour of `Setup()` is observable by the loader, so the model carries
exactly that; the remaining interface methods are never invoked on the
load path. -/
structure AAAPlugin where
  setupResult : SetupOutcome
deriving DecidableEq, Repr

/-- `AAAProtocol { Cfg AAAPluginConfig; Plugin AAAPlugin }` -/
structure AAAProtocol where
  cfg : AAAPluginConfig
  plugin : AAAPlugin
deriving DecidableEq, Repr

/-- `AAA { Protocols map[string]*AAAProtocol }`.  The Go map is modelled as
an association list with unique keys; `map[name] = protocol` is `mapInsert`
(replace the existing entry or append) and indexing is `findProto`. -/
structure AAA where
  protocols : List (String × AAAProtocol)
deriving DecidableEq, Repr

/-- A value obtained from `plugin.Lookup`: a symbol of type `*uint32`
(carrying the pointed-at value), a symbol whose runtime type satisfies the
`AAAPlugin` interface, or a symbol of any other type. -/
inductive SymVal where
  | uint32Ptr : Nat → SymVal
  | impl : AAAPlugin → SymVal
  | other : SymVal
deriving DecidableEq, Repr

/-- A dynamically loaded module: its exported-symbol table.
`lookup s = none` models `plugin.Lookup` returning a non-nil error
(symbol absent). -/
structure PluginModule where
  lookup : String → Option SymVal

/-- Result of `os.Open` on a config file followed by `json.Decode`:
the open fails, the decode fails, or a descriptor is obtained. -/
inductive CfgRead where
  | openErr : String → CfgRead
  | decodeErr : String → CfgRead
  | ok : AAAPluginConfig → CfgRead

/-- An entry of `dir.Readdir`: the base name and whether
`file.Mode().IsRegular()` holds. -/
structure FileInfo where
  name : String
  isRegular : Bool
deriving DecidableEq, Repr

/-- The effectful boundary of the loader, fixed for one load pass:
the outcome of opening the config directory, of enumerating it, of reading
a config file at a given path, and of opening a plugin module at a given
path. -/
structure Env where
  dirOpen : Except String Unit
  readdir : Except String (List FileInfo)
  cfgRead : String → CfgRead
  pluginOpen : String → Except String PluginModule

/-- The errors produced by `loadAAAPlugin` / `lookupPluginImpl`, one
constructor per `fmt.Errorf` site, carrying exactly the values the
format string interpolates. -/
inductive LoadErr where
  | openCfgFailed : String → LoadErr
  | decodeCfgFailed : String → LoadErr
  | pluginOpenFailed : String → LoadErr
  | versionSymTypeMismatch : LoadErr
  | versionMismatch : String → Nat → Nat → LoadErr
  | implSymMissing : Nat → LoadErr
  | implSymTypeMismatch : Nat → LoadErr
deriving DecidableEq, Repr

/-- The rendered message of each error, as built by the corresponding
`fmt.Errorf` call in the source. -/
def LoadErr.message : LoadErr → String
  | LoadErr.openCfgFailed m => "Failed opening plugin config file: " ++ m
  | LoadErr.decodeCfgFailed m => "Failed to decode plugin config file: " ++ m
  | LoadErr.pluginOpenFailed m => "Could not load plugin: " ++ m
  | LoadErr.versionSymTypeMismatch =>
      "Unexpected type from " ++ aaaPluginAPIVersionSym ++ " symbol"
  | LoadErr.versionMismatch name got expected =>
      "Unsupported " ++ aaaPluginAPIVersionSym ++ " for plugin " ++ name ++ ": "
        ++ Nat.repr got ++ ", expected " ++ Nat.repr expected
  | LoadErr.implSymMissing ver => "Could not lookup plugin V" ++ Nat.repr ver
  | LoadErr.implSymTypeMismatch ver =>
      "Unexpected type from AAAPluginV" ++ Nat.repr ver ++ " symbol"

/-- What `log.Print` receives inside `LoadAAA`: a `loadAAAPlugin` error, or
the `"Error setting up plugin %s: %s"` message with the plugin name and the
setup error. -/
inductive LogEntry where
  | loadErr : LoadErr → LogEntry
  | setupErr : String → String → LogEntry
deriving DecidableEq, Repr

/-- `filepath.Ext`: the suffix of the path beginning at the final dot of its
final slash-separated element; empty if that element has no dot. -/
def extAux : List Char → List Char → String
  | [], _ => ""
  | c :: rest, acc =>
    if c = '.' then String.mk ('.' :: acc)
    else if c = '/' then ""
    else extAux rest (c :: acc)

def filepathExt (s : String) : String := extAux s.data.reverse []

/--
`func lookupPluginImpl(name string, p *plugin.Plugin, ver uint32) (AAAPlugin, error)`:
look up the fixed version symbol (the returned error is not checked, so an
absent symbol flows into the failing `*uint32` type assertion), compare the
pointed-at version against `ver`, then look up and type-assert the
version-specific entry point.
-/
def lookupPluginImpl (name : String) (p : PluginModule) (ver : Nat) :
    Except LoadErr AAAPlugin :=
  match p.lookup aaaPluginAPIVersionSym with
  | some (SymVal.uint32Ptr version) =>
    if version ≠ ver then
      Except.error (LoadErr.versionMismatch name version ver)
    else
      match p.lookup (aaaPluginImplSym ver) with
      | none => Except.error (LoadErr.implSymMissing ver)
      | some (SymVal.impl aaaPlugin) => Except.ok aaaPlugin
      | some (SymVal.uint32Ptr _) => Except.error (LoadErr.implSymTypeMismatch ver)
      | some SymVal.other => Except.error (LoadErr.implSymTypeMismatch ver)
  | _ => Except.error LoadErr.versionSymTypeMismatch

/--
`func loadAAAPlugin(fn string) (string, *AAAProtocol, error)`: open and decode
the descriptor at `AAAPluginsCfgDir + fn`, open the module at
`AAAPluginsDir + cfg.Name + ".so"`, resolve the implementation via
`lookupPluginImpl`, and return the declared name with the assembled protocol.
-/
def loadAAAPlugin (env : Env) (fn : String) :
    Except LoadErr (String × AAAProtocol) :=
  match env.cfgRead (AAAPluginsCfgDir ++ fn) with
  | CfgRead.openErr e => Except.error (LoadErr.openCfgFailed e)
  | CfgRead.decodeErr e => Except.error (LoadErr.decodeCfgFailed e)
  | CfgRead.ok cfg =>
    match env.pluginOpen (AAAPluginsDir ++ cfg.name ++ ".so") with
    | Except.error e => Except.error (LoadErr.pluginOpenFailed e)
    | Except.ok p =>
      match lookupPluginImpl cfg.name p AAAPluginAPIVersion with
      | Except.error e => Except.error e
      | Except.ok impl =>
          Except.ok (cfg.name, { cfg := cfg, plugin := impl })

/-- Modelled from the spec: `guard.CatchPanicErrorOnly` (an external
`danos/utils/guard` dependency, specified here only at its interface
boundary) runs the call under a recovery boundary — an ordinary error
return passes through, and an abnormal runtime fault raised by the call
is converted into an ordinary reported error. -/
def catchPanicErrorOnly : SetupOutcome → Option String
  | SetupOutcome.ok => none
  | SetupOutcome.fail msg => some msg
  | SetupOutcome.fault msg => some ("panic: " ++ msg)

/-- Go map assignment `m[k] = v`: replace the entry with key `k` when one
exists, otherwise add a new entry. -/
def mapInsert (m : List (String × AAAProtocol)) (k : String) (v : AAAProtocol) :
    List (String × AAAProtocol) :=
  if m.any (fun e => e.1 = k) then
    m.map (fun e => if e.1 = k then (k, v) else e)
  else
    m ++ [(k, v)]

/-- Go map indexing `m[k]`. -/
def findProto (m : List (String × AAAProtocol)) (k : String) : Option AAAProtocol :=
  match m with
  | [] => none
  | e :: rest => if e.1 = k then some e.2 else findProto rest k

/-- One iteration of the `for _, file := range files` loop of `LoadAAA`,
acting on the pair (registry so far, log so far): skip non-regular files and
files without the `.json` extension; log and skip a `loadAAAPlugin` error;
run `Setup` under the guard, logging and skipping on error; otherwise store
the protocol under its declared name. -/
def loadStep (env : Env)
    (st : List (String × AAAProtocol) × List LogEntry) (file : FileInfo) :
    List (String × AAAProtocol) × List LogEntry :=
  if file.isRegular then
    if filepathExt file.name = ".json" then
      match loadAAAPlugin env file.name with
      | Except.error e => (st.1, st.2 ++ [LogEntry.loadErr e])
      | Except.ok (name, protocol) =>
        match catchPanicErrorOnly protocol.plugin.setupResult with
        | some msg => (st.1, st.2 ++ [LogEntry.setupErr name msg])
        | none => (mapInsert st.1 name protocol, st.2)
    else st
  else st

/--
`func LoadAAA() (*AAA, error)`: open and enumerate the config directory
(either failure is returned to the caller with a nil registry), then fold
`loadStep` over the listing and return the assembled registry.  The second
component collects everything handed to `log.Print`.
-/
def LoadAAA (env : Env) : Except String AAA × List LogEntry :=
  match env.dirOpen with
  | Except.error e => (Except.error e, [])
  | Except.ok _ =>
    match env.readdir with
    | Except.error e => (Except.error e, [])
    | Except.ok files =>
      let st := files.foldl (loadStep env) ([], [])
      (Except.ok { protocols := st.1 }, st.2)

/-- Whether processing the directory entry `f` stores a protocol under key
`k`: `f` is a regular `.json` file whose descriptor and plugin load with
declared name `k` and whose guarded setup succeeds. -/
def insertsName (env : Env) (f : FileInfo) (k : String) : Bool :=
  f.isRegular &&
    (filepathExt f.name == ".json") &&
    (match loadAAAPlugin env f.name with
     | Except.ok (n, pr) =>
         n == k && (catchPanicErrorOnly pr.plugin.setupResult).isNone
     | Except.error _ => false)

/-! ### Concrete fixtures

Small closed environments exercising each path of the loader.  They are the
inputs at which the theorems below are instantiated. -/

/-- A plugin whose `Setup` returns nil. -/
def goodPlugin : AAAPlugin := { setupResult := SetupOutcome.ok }

/-- A plugin whose `Setup` raises an abnormal runtime fault. -/
def faultPlugin : AAAPlugin := { setupResult := SetupOutcome.fault ("boom") }

/-- A module exporting the supported ABI version and a conforming entry point. -/
def goodModule : PluginModule :=
  { lookup := fun s =>
      if s = aaaPluginAPIVersionSym then some (SymVal.uint32Ptr 2)
      else if s = aaaPluginImplSym 2 then some (SymVal.impl goodPlugin)
      else none }

/-- Like `goodModule`, but its entry point's `Setup` faults. -/
def faultModule : PluginModule :=
  { lookup := fun s =>
      if s = aaaPluginAPIVersionSym then some (SymVal.uint32Ptr 2)
      else if s = aaaPluginImplSym 2 then some (SymVal.impl faultPlugin)
      else none }

/-- A module built against ABI version 1 (one below the supported version),
with a conforming entry point for its own version. -/
def oldModule : PluginModule :=
  { lookup := fun s =>
      if s = aaaPluginAPIVersionSym then some (SymVal.uint32Ptr 1)
      else if s = aaaPluginImplSym 1 then some (SymVal.impl goodPlugin)
      else none }

/-- A module built against ABI version 3 (one above the supported version). -/
def newModule : PluginModule :=
  { lookup := fun s =>
      if s = aaaPluginAPIVersionSym then some (SymVal.uint32Ptr 3)
      else if s = aaaPluginImplSym 3 then some (SymVal.impl goodPlugin)
      else none }

/-- A module exporting no symbols at all. -/
def emptyModule : PluginModule := { lookup := fun _ => none }

def cfgTac : AAAPluginConfig :=
  { cmdAcct := true, cmdAuthor := true, name := "tacplus" }

def cfgCrash : AAAPluginConfig :=
  { cmdAcct := true, cmdAuthor := false, name := "crashy" }

def cfgOld : AAAPluginConfig :=
  { cmdAcct := false, cmdAuthor := true, name := "oldproto" }

def cfgNew : AAAPluginConfig :=
  { cmdAcct := false, cmdAuthor := true, name := "newproto" }

def cfgMiss : AAAPluginConfig :=
  { cmdAcct := true, cmdAuthor := true, name := "nosyms" }

/-- Two descriptors declaring the same protocol name with different
feature flags. -/
def cfgDupA : AAAPluginConfig :=
  { cmdAcct := false, cmdAuthor := false, name := "dup" }

def cfgDupB : AAAPluginConfig :=
  { cmdAcct := true, cmdAuthor := true, name := "dup" }

def protoTac : AAAProtocol := { cfg := cfgTac, plugin := goodPlugin }

def fiTac : FileInfo := { name := "tac.json", isRegular := true }

def fiCrash : FileInfo := { name := "crash.json", isRegular := true }

def fiOld : FileInfo := { name := "old.json", isRegular := true }

def fiNew : FileInfo := { name := "new.json", isRegular := true }

def fiMiss : FileInfo := { name := "miss.json", isRegular := true }

def fiDupA : FileInfo := { name := "a.json", isRegular := true }

def fiDupB : FileInfo := { name := "b.json", isRegular := true }

def protoDupA : AAAProtocol := { cfg := cfgDupA, plugin := goodPlugin }

def protoDupB : AAAProtocol := { cfg := cfgDupB, plugin := goodPlugin }

/-- One well-formed descriptor whose plugin loads and sets up cleanly. -/
def envGood : Env :=
  { dirOpen := Except.ok ()
    readdir := Except.ok [fiTac]
    cfgRead := fun s =>
      if s = AAAPluginsCfgDir ++ "tac.json" then CfgRead.ok cfgTac
      else CfgRead.openErr ("no such file")
    pluginOpen := fun s =>
      if s = AAAPluginsDir ++ "tacplus.so" then Except.ok goodModule
      else Except.error ("no such module") }

/-- The config directory cannot be opened. -/
def envBadDir : Env :=
  { dirOpen := Except.error ("open /etc/aaa-plugins/: no such file or directory")
    readdir := Except.error ("invalid argument")
    cfgRead := fun _ => CfgRead.openErr ("no such file")
    pluginOpen := fun _ => Except.error ("no such module") }

/-- The config directory opens but cannot be enumerated. -/
def envBadList : Env :=
  { dirOpen := Except.ok ()
    readdir := Except.error ("readdirent: input/output error")
    cfgRead := fun _ => CfgRead.openErr ("no such file")
    pluginOpen := fun _ => Except.error ("no such module") }

/-- A readable directory holding only a non-JSON regular file and a
non-regular entry. -/
def envNoPlugins : Env :=
  { dirOpen := Except.ok ()
    readdir := Except.ok
      [{ name := "README.txt", isRegular := true },
       { name := "subdir", isRegular := false },
       { name := "backup.json", isRegular := false }]
    cfgRead := fun _ => CfgRead.openErr ("no such file")
    pluginOpen := fun _ => Except.error ("no such module") }

/-- A faulting plugin alongside a healthy one. -/
def envFault : Env :=
  { dirOpen := Except.ok ()
    readdir := Except.ok [fiCrash, fiTac]
    cfgRead := fun s =>
      if s = AAAPluginsCfgDir ++ "crash.json" then CfgRead.ok cfgCrash
      else if s = AAAPluginsCfgDir ++ "tac.json" then CfgRead.ok cfgTac
      else CfgRead.openErr ("no such file")
    pluginOpen := fun s =>
      if s = AAAPluginsDir ++ "crashy.so" then Except.ok faultModule
      else if s = AAAPluginsDir ++ "tacplus.so" then Except.ok goodModule
      else Except.error ("no such module") }

/-- Plugins built against a lower and a higher ABI version than the host
supports, alongside a healthy one. -/
def envMismatch : Env :=
  { dirOpen := Except.ok ()
    readdir := Except.ok [fiOld, fiNew, fiTac]
    cfgRead := fun s =>
      if s = AAAPluginsCfgDir ++ "old.json" then CfgRead.ok cfgOld
      else if s = AAAPluginsCfgDir ++ "new.json" then CfgRead.ok cfgNew
      else if s = AAAPluginsCfgDir ++ "tac.json" then CfgRead.ok cfgTac
      else CfgRead.openErr ("no such file")
    pluginOpen := fun s =>
      if s = AAAPluginsDir ++ "oldproto.so" then Except.ok oldModule
      else if s = AAAPluginsDir ++ "newproto.so" then Except.ok newModule
      else if s = AAAPluginsDir ++ "tacplus.so" then Except.ok goodModule
      else Except.error ("no such module") }

/-- A module with no exported symbols behind a valid descriptor. -/
def envNoSyms : Env :=
  { dirOpen := Except.ok ()
    readdir := Except.ok [fiMiss]
    cfgRead := fun s =>
      if s = AAAPluginsCfgDir ++ "miss.json" then CfgRead.ok cfgMiss
      else CfgRead.openErr ("no such file")
    pluginOpen := fun s =>
      if s = AAAPluginsDir ++ "nosyms.so" then Except.ok emptyModule
      else Except.error ("no such module") }

/-- Two descriptors declaring the same name, both loading successfully. -/
def envDup : Env :=
  { dirOpen := Except.ok ()
    readdir := Except.ok [fiDupA, fiDupB]
    cfgRead := fun s =>
      if s = AAAPluginsCfgDir ++ "a.json" then CfgRead.ok cfgDupA
      else if s = AAAPluginsCfgDir ++ "b.json" then CfgRead.ok cfgDupB
      else CfgRead.openErr ("no such file")
    pluginOpen := fun s =>
      if s = AAAPluginsDir ++ "dup.so" then Except.ok goodModule
      else Except.error ("no such module") }

/-! ### Map and step lemmas -/

theorem findProto_mem {m : List (String × AAAProtocol)} {k : String}
    {v : AAAProtocol} (h : findProto m k = some v) : (k, v) ∈ m := by
  induction m with
  | nil => simp [findProto] at h
  | cons e rest ih =>
    obtain ⟨a, b⟩ := e
    by_cases hk : a = k
    · subst hk
      simp only [findProto, if_pos] at h
      cases h
      exact List.mem_cons_self _ _
    · simp only [findProto, hk, if_neg, not_false_iff] at h
      exact List.mem_cons_of_mem _ (ih h)

theorem mem_of_mapInsert {m : List (String × AAAProtocol)} {k : String}
    {v : AAAProtocol} {e : String × AAAProtocol} (h : e ∈ mapInsert m k v) :
    e = (k, v) ∨ e ∈ m := by
  by_cases ha : m.any (fun x => x.1 = k)
  · rw [mapInsert, if_pos ha] at h
    obtain ⟨a, ham, hae⟩ := List.mem_map.mp h
    by_cases h1 : a.1 = k
    · rw [if_pos h1] at hae
      exact Or.inl hae.symm
    · rw [if_neg h1] at hae
      exact Or.inr (hae ▸ ham)
  · rw [mapInsert, if_neg ha] at h
    rcases List.mem_append.mp h with h' | h'
    · exact Or.inr h'
    · exact Or.inl (List.mem_singleton.mp h')

theorem findProto_append_of_some {l1 l2 : List (String × AAAProtocol)}
    {q : String} {v : AAAProtocol} (h : findProto l1 q = some v) :
    findProto (l1 ++ l2) q = some v := by
  induction l1 with
  | nil => simp [findProto] at h
  | cons e rest ih =>
    by_cases he : e.1 = q
    · simp only [findProto, he, if_pos] at h ⊢
      exact h
    · simp only [findProto, he, if_neg, not_false_iff, List.cons_append] at h ⊢
      exact ih h

theorem findProto_append_of_none {l1 l2 : List (String × AAAProtocol)}
    {q : String} (h : findProto l1 q = none) :
    findProto (l1 ++ l2) q = findProto l2 q := by
  induction l1 with
  | nil => simp [findProto]
  | cons e rest ih =>
    by_cases he : e.1 = q
    · simp [findProto, he] at h
    · simp only [findProto, he, if_neg, not_false_iff, List.cons_append] at h ⊢
      exact ih h

theorem findProto_none_of_any_false {m : List (String × AAAProtocol)}
    {k : String} (h : m.any (fun x => x.1 = k) = false) :
    findProto m k = none := by
  induction m with
  | nil => simp [findProto]
  | cons e rest ih =>
    simp only [List.any_cons, Bool.or_eq_false_iff, decide_eq_false_iff_not] at h
    simp only [findProto, h.1, if_neg, not_false_iff]
    exact ih h.2

theorem findProto_map_replace_ne {m : List (String × AAAProtocol)}
    {k q : String} (v : AAAProtocol) (hq : q ≠ k) :
    findProto (m.map (fun e => if e.1 = k then (k, v) else e)) q =
      findProto m q := by
  induction m with
  | nil => simp
  | cons e rest ih =>
    obtain ⟨a, b⟩ := e
    by_cases h1 : a = k
    · subst h1
      simp only [List.map_cons, if_pos]
      rw [findProto, findProto, if_neg (fun h => hq h.symm),
        if_neg (fun h => hq h.symm)]
      exact ih
    · simp only [List.map_cons, h1, if_neg, not_false_iff]
      rw [findProto, findProto]
      by_cases he : a = q
      · simp [he]
      · rw [if_neg he, if_neg he]
        exact ih

theorem findProto_map_replace_self {m : List (String × AAAProtocol)}
    {k : String} (v : AAAProtocol) (h : m.any (fun x => x.1 = k) = true) :
    findProto (m.map (fun e => if e.1 = k then (k, v) else e)) k = some v := by
  induction m with
  | nil => simp at h
  | cons e rest ih =>
    obtain ⟨a, b⟩ := e
    by_cases h1 : a = k
    · subst h1
      simp [List.map_cons, findProto]
    · simp only [List.any_cons, Bool.or_eq_true, decide_eq_true_eq] at h
      rcases h with h | h
      · exact absurd h h1
      · simp only [List.map_cons, h1, if_neg, not_false_iff]
        rw [findProto, if_neg h1]
        exact ih h

theorem findProto_mapInsert (m : List (String × AAAProtocol)) (k q : String)
    (v : AAAProtocol) :
    findProto (mapInsert m k v) q =
      if q = k then some v else findProto m q := by
  by_cases hq : q = k
  · subst hq
    rw [if_pos rfl, mapInsert]
    by_cases ha : m.any (fun x => x.1 = q) = true
    · rw [if_pos ha]
      exact findProto_map_replace_self v ha
    · rw [if_neg ha]
      have hn : findProto m q = none :=
        findProto_none_of_any_false (Bool.eq_false_iff.mpr ha)
      rw [findProto_append_of_none hn]
      simp [findProto]
  · rw [if_neg hq, mapInsert]
    by_cases ha : m.any (fun x => x.1 = k) = true
    · rw [if_pos ha]
      exact findProto_map_replace_ne v hq
    · rw [if_neg ha]
      cases hf : findProto m q with
      | none =>
        rw [findProto_append_of_none hf]
        have hk : ¬(k = q) := fun h => hq h.symm
        simp [findProto, hk]
      | some w => exact findProto_append_of_some hf

theorem findProto_mapInsert_self (m : List (String × AAAProtocol)) (k : String)
    (v : AAAProtocol) : findProto (mapInsert m k v) k = some v := by
  rw [findProto_mapInsert, if_pos rfl]

theorem findProto_mapInsert_ne {m : List (String × AAAProtocol)} {k q : String}
    (v : AAAProtocol) (hq : q ≠ k) :
    findProto (mapInsert m k v) q = findProto m q := by
  rw [findProto_mapInsert, if_neg hq]

theorem findProto_mapInsert_isSome {m : List (String × AAAProtocol)}
    {k q : String} (v : AAAProtocol) (h : (findProto m q).isSome = true) :
    (findProto (mapInsert m k v) q).isSome = true := by
  by_cases hq : q = k
  · subst hq
    rw [findProto_mapInsert_self]
    rfl
  · rw [findProto_mapInsert_ne v hq]
    exact h

theorem keys_mapInsert_nodup {m : List (String × AAAProtocol)} {k : String}
    (v : AAAProtocol) (h : (m.map Prod.fst).Nodup) :
    ((mapInsert m k v).map Prod.fst).Nodup := by
  rw [mapInsert]
  by_cases ha : m.any (fun x => x.1 = k) = true
  · rw [if_pos ha]
    have hmap : (m.map (fun e => if e.1 = k then (k, v) else e)).map Prod.fst
        = m.map Prod.fst := by
      rw [List.map_map]
      apply List.map_congr_left
      intro e _
      by_cases h1 : e.1 = k
      · simp [Function.comp, h1]
      · simp [Function.comp, h1]
    rw [hmap]
    exact h
  · rw [if_neg ha]
    have hnot : ∀ x ∈ m, x.1 ≠ k := by
      intro x hx hc
      exact ha (List.any_eq_true.mpr ⟨x, hx, by simp [hc]⟩)
    rw [List.map_append]
    rw [List.nodup_append]
    refine ⟨h, List.nodup_singleton k, ?_⟩
    intro a ha1 ha2
    obtain ⟨x, hx, hxa⟩ := List.mem_map.mp ha1
    simp only [List.map_cons, List.map_nil, List.mem_singleton] at ha2
    exact hnot x hx (hxa.trans ha2)

theorem countP_key_eq_zero {m : List (String × AAAProtocol)} {k : String}
    (h : ∀ x ∈ m, x.1 ≠ k) : m.countP (fun e => e.1 = k) = 0 := by
  rw [List.countP_eq_zero]
  intro a ha
  simp [h a ha]

theorem countP_key_eq_one {m : List (String × AAAProtocol)} {k : String}
    (hn : (m.map Prod.fst).Nodup) {v : AAAProtocol}
    (h : findProto m k = some v) :
    m.countP (fun e => e.1 = k) = 1 := by
  induction m with
  | nil => simp [findProto] at h
  | cons e rest ih =>
    obtain ⟨a, b⟩ := e
    simp only [List.map_cons, List.nodup_cons] at hn
    rw [List.countP_cons]
    by_cases h1 : a = k
    · subst h1
      have hz : rest.countP (fun e => e.1 = a) = 0 :=
        countP_key_eq_zero (fun x hx hc =>
          hn.1 (hc ▸ List.mem_map.mpr ⟨x, hx, rfl⟩))
      simp [hz]
    · simp only [findProto, h1, if_neg, not_false_iff] at h
      have := ih hn.2 h
      simp [this, h1]

/-! ### Loop-step lemmas -/

theorem loadStep_skip_nonregular {env : Env}
    {st : List (String × AAAProtocol) × List LogEntry} {f : FileInfo}
    (hr : f.isRegular = false) : loadStep env st f = st := by
  simp [loadStep, hr]

theorem loadStep_skip_ext {env : Env}
    {st : List (String × AAAProtocol) × List LogEntry} {f : FileInfo}
    (he : filepathExt f.name ≠ ".json") : loadStep env st f = st := by
  cases hr : f.isRegular <;> simp [loadStep, hr, he]

theorem loadStep_loadErr {env : Env}
    {st : List (String × AAAProtocol) × List LogEntry} {f : FileInfo}
    {e : LoadErr} (hr : f.isRegular = true)
    (he : filepathExt f.name = ".json")
    (hl : loadAAAPlugin env f.name = Except.error e) :
    loadStep env st f = (st.1, st.2 ++ [LogEntry.loadErr e]) := by
  simp [loadStep, hr, he, hl]

theorem loadStep_setupErr {env : Env}
    {st : List (String × AAAProtocol) × List LogEntry} {f : FileInfo}
    {n : String} {pr : AAAProtocol} {msg : String} (hr : f.isRegular = true)
    (he : filepathExt f.name = ".json")
    (hl : loadAAAPlugin env f.name = Except.ok (n, pr))
    (hs : catchPanicErrorOnly pr.plugin.setupResult = some msg) :
    loadStep env st f = (st.1, st.2 ++ [LogEntry.setupErr n msg]) := by
  simp [loadStep, hr, he, hl, hs]

theorem loadStep_insert {env : Env}
    {st : List (String × AAAProtocol) × List LogEntry} {f : FileInfo}
    {n : String} {pr : AAAProtocol} (hr : f.isRegular = true)
    (he : filepathExt f.name = ".json")
    (hl : loadAAAPlugin env f.name = Except.ok (n, pr))
    (hs : catchPanicErrorOnly pr.plugin.setupResult = none) :
    loadStep env st f = (mapInsert st.1 n pr, st.2) := by
  simp [loadStep, hr, he, hl, hs]

/-- Exhaustive description of one loop iteration: it leaves the state alone,
appends one log entry, or stores one successfully set-up protocol. -/
theorem loadStep_cases (env : Env)
    (st : List (String × AAAProtocol) × List LogEntry) (f : FileInfo) :
    loadStep env st f = st ∨
    (∃ e, loadAAAPlugin env f.name = Except.error e ∧
      loadStep env st f = (st.1, st.2 ++ [LogEntry.loadErr e])) ∨
    (∃ n pr msg, loadAAAPlugin env f.name = Except.ok (n, pr) ∧
      catchPanicErrorOnly pr.plugin.setupResult = some msg ∧
      loadStep env st f = (st.1, st.2 ++ [LogEntry.setupErr n msg])) ∨
    (∃ n pr, f.isRegular = true ∧ filepathExt f.name = ".json" ∧
      loadAAAPlugin env f.name = Except.ok (n, pr) ∧
      catchPanicErrorOnly pr.plugin.setupResult = none ∧
      loadStep env st f = (mapInsert st.1 n pr, st.2)) := by
  cases hr : f.isRegular with
  | false => exact Or.inl (loadStep_skip_nonregular hr)
  | true =>
    by_cases he : filepathExt f.name = ".json"
    · cases hl : loadAAAPlugin env f.name with
      | error e =>
        exact Or.inr (Or.inl ⟨e, rfl, loadStep_loadErr hr he hl⟩)
      | ok npr =>
        obtain ⟨n, pr⟩ := npr
        cases hs : catchPanicErrorOnly pr.plugin.setupResult with
        | some msg =>
          exact Or.inr (Or.inr (Or.inl
            ⟨n, pr, msg, rfl, hs, loadStep_setupErr hr he hl hs⟩))
        | none =>
          exact Or.inr (Or.inr (Or.inr
            ⟨n, pr, rfl, he, rfl, hs, loadStep_insert hr he hl hs⟩))
    · exact Or.inl (loadStep_skip_ext he)

/-! ### Fold lemmas -/

/-- Every entry of the folded registry that is not in the initial state was
stored by some listed file whose plugin loaded and set up successfully. -/
theorem fold_entry_origin {env : Env} {k : String} {pr : AAAProtocol}
    {l : List FileInfo} {st : List (String × AAAProtocol) × List LogEntry}
    (h : (k, pr) ∈ (List.foldl (loadStep env) st l).1) :
    (k, pr) ∈ st.1 ∨
      ∃ f, f ∈ l ∧ loadAAAPlugin env f.name = Except.ok (k, pr) ∧
        catchPanicErrorOnly pr.plugin.setupResult = none := by
  induction l generalizing st with
  | nil => exact Or.inl h
  | cons f l ih =>
    rw [List.foldl_cons] at h
    rcases ih h with h1 | ⟨g, hg, hok, hset⟩
    · rcases loadStep_cases env st f with heq | ⟨e, hl, heq⟩ |
        ⟨n, pr2, msg, hl, hs, heq⟩ | ⟨n, pr2, hreg, hext, hl, hs, heq⟩
      · rw [heq] at h1
        exact Or.inl h1
      · rw [heq] at h1
        exact Or.inl h1
      · rw [heq] at h1
        exact Or.inl h1
      · rw [heq] at h1
        rcases mem_of_mapInsert h1 with heqv | hmem
        · injection heqv with hk hpr
          subst hk
          subst hpr
          exact Or.inr ⟨f, List.mem_cons_self f l, hl, hs⟩
        · exact Or.inl hmem
    · exact Or.inr ⟨g, List.mem_cons_of_mem f hg, hok, hset⟩

/-- A key present in the registry stays present across the rest of the fold. -/
theorem fold_findProto_isSome {env : Env} {k : String} {l : List FileInfo}
    {st : List (String × AAAProtocol) × List LogEntry}
    (h : (findProto st.1 k).isSome = true) :
    (findProto (List.foldl (loadStep env) st l).1 k).isSome = true := by
  induction l generalizing st with
  | nil => exact h
  | cons f l ih =>
    rw [List.foldl_cons]
    apply ih
    rcases loadStep_cases env st f with heq | ⟨e, hl, heq⟩ |
      ⟨n, pr2, msg, hl, hs, heq⟩ | ⟨n, pr2, hreg, hext, hl, hs, heq⟩ <;>
      rw [heq]
    · exact h
    · exact h
    · exact h
    · exact findProto_mapInsert_isSome pr2 h

/-- Log entries are only ever appended by the fold. -/
theorem fold_log_mem {env : Env} {x : LogEntry} {l : List FileInfo}
    {st : List (String × AAAProtocol) × List LogEntry} (h : x ∈ st.2) :
    x ∈ (List.foldl (loadStep env) st l).2 := by
  induction l generalizing st with
  | nil => exact h
  | cons f l ih =>
    rw [List.foldl_cons]
    apply ih
    rcases loadStep_cases env st f with heq | ⟨e, hl, heq⟩ |
      ⟨n, pr2, msg, hl, hs, heq⟩ | ⟨n, pr2, hreg, hext, hl, hs, heq⟩ <;>
      rw [heq]
    · exact h
    · exact List.mem_append_left _ h
    · exact List.mem_append_left _ h
    · exact h

/-- The fold keeps the registry's keys free of duplicates. -/
theorem fold_keys_nodup {env : Env} {l : List FileInfo}
    {st : List (String × AAAProtocol) × List LogEntry}
    (h : (st.1.map Prod.fst).Nodup) :
    ((List.foldl (loadStep env) st l).1.map Prod.fst).Nodup := by
  induction l generalizing st with
  | nil => exact h
  | cons f l ih =>
    rw [List.foldl_cons]
    apply ih
    rcases loadStep_cases env st f with heq | ⟨e, hl, heq⟩ |
      ⟨n, pr2, msg, hl, hs, heq⟩ | ⟨n, pr2, hreg, hext, hl, hs, heq⟩ <;>
      rw [heq]
    · exact h
    · exact h
    · exact h
    · exact keys_mapInsert_nodup pr2 h

theorem loadStep_findProto_of_not_inserts {env : Env}
    {st : List (String × AAAProtocol) × List LogEntry} {f : FileInfo}
    {k : String} (h : insertsName env f k = false) :
    findProto (loadStep env st f).1 k = findProto st.1 k := by
  rcases loadStep_cases env st f with heq | ⟨e, hl, heq⟩ |
    ⟨n, pr2, msg, hl, hs, heq⟩ | ⟨n, pr2, hreg, hext, hl, hs, heq⟩ <;>
    rw [heq]
  · apply findProto_mapInsert_ne
    intro hkn
    subst hkn
    rw [insertsName, hreg, hl] at h
    simp [hext, hs] at h

/-- If none of the listed files stores a protocol under `k`, the fold leaves
the entry at `k` unchanged. -/
theorem fold_findProto_of_not_inserts {env : Env} {k : String}
    {l : List FileInfo} {st : List (String × AAAProtocol) × List LogEntry}
    (h : ∀ f ∈ l, insertsName env f k = false) :
    findProto (List.foldl (loadStep env) st l).1 k = findProto st.1 k := by
  induction l generalizing st with
  | nil => rfl
  | cons f l ih =>
    rw [List.foldl_cons]
    rw [ih (fun g hg => h g (List.mem_cons_of_mem f hg))]
    exact loadStep_findProto_of_not_inserts (h f (List.mem_cons_self f l))

/-! ### Characterization of the load entry point -/

theorem LoadAAA_dirOpen_err {env : Env} {e : String}
    (hd : env.dirOpen = Except.error e) : LoadAAA env = (Except.error e, []) := by
  unfold LoadAAA
  rw [hd]

theorem LoadAAA_readdir_err {env : Env} {e : String}
    (hd : env.dirOpen = Except.ok ()) (hr : env.readdir = Except.error e) :
    LoadAAA env = (Except.error e, []) := by
  unfold LoadAAA
  rw [hd, hr]

theorem LoadAAA_eq {env : Env} {files : List FileInfo}
    (hd : env.dirOpen = Except.ok ()) (hr : env.readdir = Except.ok files) :
    LoadAAA env =
      (Except.ok { protocols := (files.foldl (loadStep env) ([], [])).1 },
       (files.foldl (loadStep env) ([], [])).2) := by
  unfold LoadAAA
  rw [hd, hr]

theorem LoadAAA_ok_inv {env : Env} {aaa : AAA}
    (h : (LoadAAA env).1 = Except.ok aaa) :
    ∃ files, env.dirOpen = Except.ok () ∧ env.readdir = Except.ok files ∧
      aaa.protocols = (files.foldl (loadStep env) ([], [])).1 := by
  cases hd : env.dirOpen with
  | error e =>
    rw [LoadAAA_dirOpen_err hd] at h
    simp at h
  | ok u =>
    cases u
    cases hr : env.readdir with
    | error e =>
      rw [LoadAAA_readdir_err hd hr] at h
      simp at h
    | ok files =>
      rw [LoadAAA_eq hd hr] at h
      have h2 : Except.ok
          (AAA.mk ((files.foldl (loadStep env) ([], [])).1)) =
          Except.ok aaa := h
      injection h2 with h3
      exact ⟨files, rfl, rfl, by rw [← h3]⟩

/-- Every registry entry of a completed load pass was produced by a
successful `loadAAAPlugin` call and a cleanly returning guarded setup. -/
theorem LoadAAA_entry_facts {env : Env} {aaa : AAA} {k : String}
    {pr : AAAProtocol} (h : (LoadAAA env).1 = Except.ok aaa)
    (hm : (k, pr) ∈ aaa.protocols) :
    ∃ fn, loadAAAPlugin env fn = Except.ok (k, pr) ∧
      catchPanicErrorOnly pr.plugin.setupResult = none := by
  obtain ⟨files, hd, hr, hp⟩ := LoadAAA_ok_inv h
  rw [hp] at hm
  rcases fold_entry_origin hm with h0 | ⟨f, _, hok, hset⟩
  · simp at h0
  · exact ⟨f.name, hok, hset⟩

/-! ### Inversion of the resolver -/

theorem lookupPluginImpl_ok_inv {n : String} {p : PluginModule} {ver : Nat}
    {a : AAAPlugin} (h : lookupPluginImpl n p ver = Except.ok a) :
    p.lookup aaaPluginAPIVersionSym = some (SymVal.uint32Ptr ver) ∧
    p.lookup (aaaPluginImplSym ver) = some (SymVal.impl a) := by
  unfold lookupPluginImpl at h
  split at h
  case _ version heq =>
    split at h
    · exact absurd h (by simp)
    case _ hne =>
      have hv : version = ver := of_not_not hne
      subst hv
      split at h
      · exact absurd h (by simp)
      case _ impl heq2 =>
        injection h with h2
        subst h2
        exact ⟨heq, heq2⟩
      · exact absurd h (by simp)
      · exact absurd h (by simp)
  case _ =>
    exact absurd h (by simp)

theorem loadAAAPlugin_ok_inv {env : Env} {fn : String} {k : String}
    {pr : AAAProtocol} (h : loadAAAPlugin env fn = Except.ok (k, pr)) :
    ∃ cfg p, env.cfgRead (AAAPluginsCfgDir ++ fn) = CfgRead.ok cfg ∧
      cfg.name = k ∧ pr.cfg = cfg ∧
      env.pluginOpen (AAAPluginsDir ++ k ++ ".so") = Except.ok p ∧
      lookupPluginImpl k p AAAPluginAPIVersion = Except.ok pr.plugin := by
  unfold loadAAAPlugin at h
  split at h
  · exact absurd h (by simp)
  · exact absurd h (by simp)
  case _ cfg heq =>
    split at h
    · exact absurd h (by simp)
    case _ p heq2 =>
      split at h
      · exact absurd h (by simp)
      case _ impl heq3 =>
        injection h with h2
        injection h2 with hk hpr
        subst hk
        subst hpr
        exact ⟨cfg, p, heq, rfl, rfl, heq2, heq3⟩

theorem lookupPluginImpl_ok_of {n : String} {p : PluginModule} {ver : Nat}
    {a : AAAPlugin}
    (hv : p.lookup aaaPluginAPIVersionSym = some (SymVal.uint32Ptr ver))
    (hi : p.lookup (aaaPluginImplSym ver) = some (SymVal.impl a)) :
    lookupPluginImpl n p ver = Except.ok a := by
  unfold lookupPluginImpl
  rw [hv]
  dsimp only
  rw [if_neg (fun h => h rfl), hi]

theorem lookupPluginImpl_mismatch {n : String} {p : PluginModule} {ver v : Nat}
    (hv : p.lookup aaaPluginAPIVersionSym = some (SymVal.uint32Ptr v))
    (hne : v ≠ ver) :
    lookupPluginImpl n p ver =
      Except.error (LoadErr.versionMismatch n v ver) := by
  unfold lookupPluginImpl
  rw [hv]
  dsimp only
  rw [if_pos hne]

theorem lookupPluginImpl_noVersionSym {n : String} {p : PluginModule}
    {ver : Nat}
    (hnv : ∀ v, p.lookup aaaPluginAPIVersionSym ≠ some (SymVal.uint32Ptr v)) :
    lookupPluginImpl n p ver = Except.error LoadErr.versionSymTypeMismatch := by
  unfold lookupPluginImpl
  cases hl : p.lookup aaaPluginAPIVersionSym with
  | none => rfl
  | some sv =>
    cases sv with
    | uint32Ptr v => exact absurd hl (hnv v)
    | impl a => rfl
    | other => rfl

theorem loadAAAPlugin_ok_of {env : Env} {fn : String} {cfg : AAAPluginConfig}
    {p : PluginModule} {a : AAAPlugin}
    (hcfg : env.cfgRead (AAAPluginsCfgDir ++ fn) = CfgRead.ok cfg)
    (hp : env.pluginOpen (AAAPluginsDir ++ cfg.name ++ ".so") = Except.ok p)
    (hli : lookupPluginImpl cfg.name p AAAPluginAPIVersion = Except.ok a) :
    loadAAAPlugin env fn = Except.ok (cfg.name, { cfg := cfg, plugin := a }) := by
  unfold loadAAAPlugin
  rw [hcfg]
  dsimp only
  rw [hp]
  dsimp only
  rw [hli]

theorem loadAAAPlugin_err_of {env : Env} {fn : String} {cfg : AAAPluginConfig}
    {p : PluginModule} {e : LoadErr}
    (hcfg : env.cfgRead (AAAPluginsCfgDir ++ fn) = CfgRead.ok cfg)
    (hp : env.pluginOpen (AAAPluginsDir ++ cfg.name ++ ".so") = Except.ok p)
    (hli : lookupPluginImpl cfg.name p AAAPluginAPIVersion = Except.error e) :
    loadAAAPlugin env fn = Except.error e := by
  unfold loadAAAPlugin
  rw [hcfg]
  dsimp only
  rw [hp]
  dsimp only
  rw [hli]

/-- A name whose module resolves but fails the ABI resolver can never be a
registry key: any entry under it would have had to resolve the very same
module successfully. -/
theorem findProto_none_of_resolver_fail {env : Env} {aaa : AAA} {n : String}
    {p : PluginModule} (h : (LoadAAA env).1 = Except.ok aaa)
    (hp : env.pluginOpen (AAAPluginsDir ++ n ++ ".so") = Except.ok p)
    (hf : ∀ a, lookupPluginImpl n p AAAPluginAPIVersion ≠ Except.ok a) :
    findProto aaa.protocols n = none := by
  cases hfp : findProto aaa.protocols n with
  | none => rfl
  | some pr =>
    obtain ⟨fn, hok, _⟩ := LoadAAA_entry_facts h (findProto_mem hfp)
    obtain ⟨cfg, p0, _, hname, _, hpo, hli⟩ := loadAAAPlugin_ok_inv hok
    rw [hp] at hpo
    injection hpo with hpp
    subst hpp
    exact absurd hli (hf pr.plugin)

/-- A `.json` regular file whose plugin loads and sets up cleanly leaves its
declared name present for the rest of the pass. -/
theorem fold_key_present {env : Env} {files : List FileInfo} {g : FileInfo}
    {m2 : String} {pr3 : AAAProtocol}
    (hg : g ∈ files) (hgreg : g.isRegular = true)
    (hgext : filepathExt g.name = ".json")
    (hgok : loadAAAPlugin env g.name = Except.ok (m2, pr3))
    (hgsetup : catchPanicErrorOnly pr3.plugin.setupResult = none)
    (st : List (String × AAAProtocol) × List LogEntry) :
    (findProto (List.foldl (loadStep env) st files).1 m2).isSome = true := by
  obtain ⟨s, t, rfl⟩ := List.append_of_mem hg
  rw [List.foldl_append, List.foldl_cons]
  apply fold_findProto_isSome
  rw [loadStep_insert hgreg hgext hgok hgsetup]
  show (findProto (mapInsert _ m2 pr3) m2).isSome = true
  rw [findProto_mapInsert_self]
  rfl

theorem fold_log_of_loadErr {env : Env} {files : List FileInfo} {f : FileInfo}
    {e : LoadErr} (hf : f ∈ files) (hreg : f.isRegular = true)
    (hext : filepathExt f.name = ".json")
    (hl : loadAAAPlugin env f.name = Except.error e)
    (st : List (String × AAAProtocol) × List LogEntry) :
    LogEntry.loadErr e ∈ (List.foldl (loadStep env) st files).2 := by
  obtain ⟨s, t, rfl⟩ := List.append_of_mem hf
  rw [List.foldl_append, List.foldl_cons]
  apply fold_log_mem
  rw [loadStep_loadErr hreg hext hl]
  show LogEntry.loadErr e ∈ _ ++ [LogEntry.loadErr e]
  exact List.mem_append_right _ (List.mem_singleton.mpr rfl)

theorem fold_log_of_setupErr {env : Env} {files : List FileInfo} {f : FileInfo}
    {n msg : String} {pr : AAAProtocol} (hf : f ∈ files)
    (hreg : f.isRegular = true) (hext : filepathExt f.name = ".json")
    (hl : loadAAAPlugin env f.name = Except.ok (n, pr))
    (hs : catchPanicErrorOnly pr.plugin.setupResult = some msg)
    (st : List (String × AAAProtocol) × List LogEntry) :
    LogEntry.setupErr n msg ∈ (List.foldl (loadStep env) st files).2 := by
  obtain ⟨s, t, rfl⟩ := List.append_of_mem hf
  rw [List.foldl_append, List.foldl_cons]
  apply fold_log_mem
  rw [loadStep_setupErr hreg hext hl hs]
  show LogEntry.setupErr n msg ∈ _ ++ [LogEntry.setupErr n msg]
  exact List.mem_append_right _ (List.mem_singleton.mpr rfl)

theorem fold_skip_all {env : Env} {l : List FileInfo}
    {st : List (String × AAAProtocol) × List LogEntry}
    (h : ∀ f ∈ l, f.isRegular = false ∨ filepathExt f.name ≠ ".json") :
    List.foldl (loadStep env) st l = st := by
  induction l generalizing st with
  | nil => rfl
  | cons f l ih =>
    rw [List.foldl_cons]
    have hstep : loadStep env st f = st := by
      rcases h f (List.mem_cons_self f l) with hf | hf
      · exact loadStep_skip_nonregular hf
      · exact loadStep_skip_ext hf
    rw [hstep]
    exact ih (fun g hg => h g (List.mem_cons_of_mem f hg))

theorem lookupPluginImpl_err_inv {n : String} {p : PluginModule} {ver : Nat}
    {e : LoadErr} (h : lookupPluginImpl n p ver = Except.error e) :
    (e = LoadErr.versionSymTypeMismatch ∧
      ∀ v, p.lookup aaaPluginAPIVersionSym ≠ some (SymVal.uint32Ptr v)) ∨
    (∃ v, e = LoadErr.versionMismatch n v ver ∧
      p.lookup aaaPluginAPIVersionSym = some (SymVal.uint32Ptr v) ∧ v ≠ ver) ∨
    (e = LoadErr.implSymMissing ver ∧
      p.lookup aaaPluginAPIVersionSym = some (SymVal.uint32Ptr ver) ∧
      p.lookup (aaaPluginImplSym ver) = none) ∨
    (e = LoadErr.implSymTypeMismatch ver ∧
      p.lookup aaaPluginAPIVersionSym = some (SymVal.uint32Ptr ver) ∧
      ∃ sv, p.lookup (aaaPluginImplSym ver) = some sv ∧
        ∀ a, sv ≠ SymVal.impl a) := by
  cases hl : p.lookup aaaPluginAPIVersionSym with
  | none =>
    have hnv : ∀ v, p.lookup aaaPluginAPIVersionSym ≠ some (SymVal.uint32Ptr v) := by
      intro v hv
      rw [hl] at hv
      simp at hv
    rw [lookupPluginImpl_noVersionSym hnv] at h
    injection h with h2
    exact Or.inl ⟨h2.symm, fun v hv => by simp at hv⟩
  | some sv =>
    cases sv with
    | uint32Ptr v =>
      by_cases hveq : v = ver
      · subst hveq
        have hli := h
        unfold lookupPluginImpl at hli
        rw [hl] at hli
        dsimp only at hli
        rw [if_neg (fun hc => hc rfl)] at hli
        cases hi : p.lookup (aaaPluginImplSym v) with
        | none =>
          rw [hi] at hli
          dsimp only at hli
          injection hli with h2
          exact Or.inr (Or.inr (Or.inl ⟨h2.symm, rfl, rfl⟩))
        | some sv2 =>
          cases sv2 with
          | uint32Ptr w =>
            rw [hi] at hli
            dsimp only at hli
            injection hli with h2
            exact Or.inr (Or.inr (Or.inr ⟨h2.symm, rfl,
              SymVal.uint32Ptr w, rfl, fun a hc => by simp at hc⟩))
          | impl a =>
            rw [hi] at hli
            dsimp only at hli
            cases hli
          | other =>
            rw [hi] at hli
            dsimp only at hli
            injection hli with h2
            exact Or.inr (Or.inr (Or.inr ⟨h2.symm, rfl,
              SymVal.other, rfl, fun a hc => by simp at hc⟩))
      · rw [lookupPluginImpl_mismatch hl hveq] at h
        injection h with h2
        exact Or.inr (Or.inl ⟨v, h2.symm, rfl, hveq⟩)
    | impl a =>
      have hnv : ∀ v, p.lookup aaaPluginAPIVersionSym ≠ some (SymVal.uint32Ptr v) := by
        intro v hv
        rw [hl] at hv
        simp at hv
      rw [lookupPluginImpl_noVersionSym hnv] at h
      injection h with h2
      exact Or.inl ⟨h2.symm, fun v hv => by simp at hv⟩
    | other =>
      have hnv : ∀ v, p.lookup aaaPluginAPIVersionSym ≠ some (SymVal.uint32Ptr v) := by
        intro v hv
        rw [hl] at hv
        simp at hv
      rw [lookupPluginImpl_noVersionSym hnv] at h
      injection h with h2
      exact Or.inl ⟨h2.symm, fun v hv => by simp at hv⟩

/-! ### Claims -/

/-- C1: For every load pass, a protocol is present in the returned registry
only if its module's ABI version symbol equalled the host-supported version
(so ABI validation passed) and its `Setup` call completed without returning
an error; no registry entry exists whose setup failed. -/
theorem C1_registry_only_validated_and_setup (env : Env) (aaa : AAA)
    (k : String) (pr : AAAProtocol)
    (h : (LoadAAA env).1 = Except.ok aaa) (hm : (k, pr) ∈ aaa.protocols) :
    (∃ p, env.pluginOpen (AAAPluginsDir ++ pr.cfg.name ++ ".so") = Except.ok p ∧
      p.lookup aaaPluginAPIVersionSym =
        some (SymVal.uint32Ptr AAAPluginAPIVersion)) ∧
    pr.plugin.setupResult = SetupOutcome.ok := by
  obtain ⟨fn, hok, hset⟩ := LoadAAA_entry_facts h hm
  obtain ⟨cfg, p, hcfg, hname, hpcfg, hpo, hli⟩ := loadAAAPlugin_ok_inv hok
  obtain ⟨hv, _⟩ := lookupPluginImpl_ok_inv hli
  constructor
  · refine ⟨p, ?_, hv⟩
    rw [hpcfg, hname]
    exact hpo
  · cases hs2 : pr.plugin.setupResult with
    | ok => rfl
    | fail m =>
      rw [hs2] at hset
      simp [catchPanicErrorOnly] at hset
    | fault m =>
      rw [hs2] at hset
      simp [catchPanicErrorOnly] at hset

/-- Witness for C1: the single registry entry of the `envGood` load pass. -/
theorem C1_witness :
    (∃ p, envGood.pluginOpen (AAAPluginsDir ++ protoTac.cfg.name ++ ".so") =
        Except.ok p ∧
      p.lookup aaaPluginAPIVersionSym =
        some (SymVal.uint32Ptr AAAPluginAPIVersion)) ∧
    protoTac.plugin.setupResult = SetupOutcome.ok :=
  C1_registry_only_validated_and_setup envGood
    { protocols := [(("tacplus" : String), protoTac)] } ("tacplus") protoTac
    rfl (List.mem_singleton.mpr rfl)

/-- C2 is refuted as literally stated: in `envDup` the descriptor `a.json`
satisfies every success condition of the claim — it decodes, its module's
version symbol equals the supported version, the entry point conforms and
sets up cleanly — yet the protocol decoded from it is not in the final
registry: the later descriptor `b.json` declares the same name and replaced
it. -/
theorem C2_counterexample :
    envDup.cfgRead (AAAPluginsCfgDir ++ "a.json") = CfgRead.ok cfgDupA ∧
    envDup.pluginOpen (AAAPluginsDir ++ cfgDupA.name ++ ".so") =
      Except.ok goodModule ∧
    goodModule.lookup aaaPluginAPIVersionSym =
      some (SymVal.uint32Ptr AAAPluginAPIVersion) ∧
    goodModule.lookup (aaaPluginImplSym AAAPluginAPIVersion) =
      some (SymVal.impl goodPlugin) ∧
    goodPlugin.setupResult = SetupOutcome.ok ∧
    loadAAAPlugin envDup ("a.json") = Except.ok (("dup" : String), protoDupA) ∧
    (LoadAAA envDup).1 =
      Except.ok { protocols := [(("dup" : String), protoDupB)] } ∧
    (("dup" : String), protoDupA) ∉
      (AAA.mk [(("dup" : String), protoDupB)]).protocols :=
  ⟨rfl, rfl, rfl, rfl, rfl, rfl, rfl, by decide⟩

/-- C2 (amended): for every descriptor file with valid JSON, a module whose
version symbol equals the host's supported ABI version and whose entry point
resolves, conforms and sets up successfully, and such that no later
descriptor in the enumeration also stores a protocol under the same declared
name, the decoded protocol appears in the returned registry keyed by the
descriptor's declared name (not the file name). -/
theorem C2_registered_by_declared_name (env : Env) (s t : List FileInfo)
    (f : FileInfo) (cfg : AAAPluginConfig) (p : PluginModule) (a : AAAPlugin)
    (hd : env.dirOpen = Except.ok ())
    (hr : env.readdir = Except.ok (s ++ f :: t))
    (hreg : f.isRegular = true) (hext : filepathExt f.name = ".json")
    (hcfg : env.cfgRead (AAAPluginsCfgDir ++ f.name) = CfgRead.ok cfg)
    (hp : env.pluginOpen (AAAPluginsDir ++ cfg.name ++ ".so") = Except.ok p)
    (hv : p.lookup aaaPluginAPIVersionSym =
      some (SymVal.uint32Ptr AAAPluginAPIVersion))
    (hi : p.lookup (aaaPluginImplSym AAAPluginAPIVersion) =
      some (SymVal.impl a))
    (hsetup : a.setupResult = SetupOutcome.ok)
    (hlater : ∀ g ∈ t, insertsName env g cfg.name = false) :
    ∃ aaa, (LoadAAA env).1 = Except.ok aaa ∧
      findProto aaa.protocols cfg.name =
        some { cfg := cfg, plugin := a } := by
  have hok : loadAAAPlugin env f.name =
      Except.ok (cfg.name, { cfg := cfg, plugin := a }) :=
    loadAAAPlugin_ok_of hcfg hp (lookupPluginImpl_ok_of hv hi)
  have hset : catchPanicErrorOnly a.setupResult = none := by
    rw [hsetup]
    rfl
  refine ⟨AAA.mk (((s ++ f :: t).foldl (loadStep env) ([], [])).1),
    by rw [LoadAAA_eq hd hr], ?_⟩
  show findProto ((s ++ f :: t).foldl (loadStep env) ([], [])).1 cfg.name = _
  rw [List.foldl_append, List.foldl_cons,
    fold_findProto_of_not_inserts hlater,
    loadStep_insert hreg hext hok hset]
  exact findProto_mapInsert_self _ cfg.name _

/-- Witness for C2 (amended) at the `envGood` load pass. -/
theorem C2_witness :
    ∃ aaa, (LoadAAA envGood).1 = Except.ok aaa ∧
      findProto aaa.protocols cfgTac.name =
        some { cfg := cfgTac, plugin := goodPlugin } :=
  C2_registered_by_declared_name envGood [] [] fiTac cfgTac goodModule
    goodPlugin rfl rfl rfl rfl rfl rfl rfl rfl rfl
    (fun g hg => absurd hg (List.not_mem_nil g))

/-- C3: a plugin whose `Setup` raises an abnormal runtime fault has the
fault converted by the recovery boundary into an ordinary reported error
identifying the plugin; the faulting protocol is absent from the registry;
the load pass does not crash — it still returns a registry — and every other
validated plugin remains registered. -/
theorem C3_setup_fault_isolated (env : Env) (files : List FileInfo)
    (f : FileInfo) (n : String) (pr : AAAProtocol) (msg : String)
    (hd : env.dirOpen = Except.ok ()) (hr : env.readdir = Except.ok files)
    (hf : f ∈ files) (hreg : f.isRegular = true)
    (hext : filepathExt f.name = ".json")
    (hok : loadAAAPlugin env f.name = Except.ok (n, pr))
    (hfault : pr.plugin.setupResult = SetupOutcome.fault msg) :
    catchPanicErrorOnly pr.plugin.setupResult = some ("panic: " ++ msg) ∧
    ∃ aaa, (LoadAAA env).1 = Except.ok aaa ∧
      LogEntry.setupErr n ("panic: " ++ msg) ∈ (LoadAAA env).2 ∧
      (∀ k2 pr2, (k2, pr2) ∈ aaa.protocols → pr2 ≠ pr) ∧
      (∀ g m2 pr3, g ∈ files → g.isRegular = true →
        filepathExt g.name = ".json" →
        loadAAAPlugin env g.name = Except.ok (m2, pr3) →
        pr3.plugin.setupResult = SetupOutcome.ok →
        (findProto aaa.protocols m2).isSome = true) := by
  have hconv : catchPanicErrorOnly pr.plugin.setupResult =
      some ("panic: " ++ msg) := by
    rw [hfault]
    rfl
  have hload : (LoadAAA env).1 =
      Except.ok (AAA.mk ((files.foldl (loadStep env) ([], [])).1)) := by
    rw [LoadAAA_eq hd hr]
  refine ⟨hconv, AAA.mk ((files.foldl (loadStep env) ([], [])).1), hload,
    ?_, ?_, ?_⟩
  · rw [LoadAAA_eq hd hr]
    exact fold_log_of_setupErr hf hreg hext hok hconv ([], [])
  · intro k2 pr2 hmem heq
    subst heq
    obtain ⟨fn2, _, hset2⟩ := LoadAAA_entry_facts hload hmem
    rw [hfault] at hset2
    simp [catchPanicErrorOnly] at hset2
  · intro g m2 pr3 hg hgreg hgext hgok hgset
    have hgcp : catchPanicErrorOnly pr3.plugin.setupResult = none := by
      rw [hgset]
      rfl
    exact fold_key_present hg hgreg hgext hgok hgcp ([], [])

/-- Witness for C3: in `envFault` the `crashy` plugin's setup faults while
`tacplus` is healthy. -/
theorem C3_witness :
    catchPanicErrorOnly
        (AAAProtocol.mk cfgCrash faultPlugin).plugin.setupResult =
      some ("panic: " ++ "boom") ∧
    ∃ aaa, (LoadAAA envFault).1 = Except.ok aaa ∧
      LogEntry.setupErr ("crashy") ("panic: " ++ "boom") ∈ (LoadAAA envFault).2 ∧
      (∀ k2 pr2, (k2, pr2) ∈ aaa.protocols →
        pr2 ≠ AAAProtocol.mk cfgCrash faultPlugin) ∧
      (∀ g m2 pr3, g ∈ [fiCrash, fiTac] → g.isRegular = true →
        filepathExt g.name = ".json" →
        loadAAAPlugin envFault g.name = Except.ok (m2, pr3) →
        pr3.plugin.setupResult = SetupOutcome.ok →
        (findProto aaa.protocols m2).isSome = true) :=
  C3_setup_fault_isolated envFault [fiCrash, fiTac] fiCrash ("crashy")
    (AAAProtocol.mk cfgCrash faultPlugin) ("boom") rfl rfl
    (List.mem_cons_self fiCrash [fiTac]) rfl rfl rfl rfl

/-- C4: if the config directory cannot be opened or enumerated, the load
returns that error and no registry (and nothing is logged); if enumeration
succeeds, the load returns a registry — per-plugin failures never fail the
load operation. -/
theorem C4_directory_failure_fatal (env : Env) :
    (∀ e, env.dirOpen = Except.error e →
      LoadAAA env = (Except.error e, [])) ∧
    (∀ e, env.dirOpen = Except.ok () → env.readdir = Except.error e →
      LoadAAA env = (Except.error e, [])) ∧
    (∀ files, env.dirOpen = Except.ok () → env.readdir = Except.ok files →
      ∃ aaa, (LoadAAA env).1 = Except.ok aaa) := by
  refine ⟨?_, ?_, ?_⟩
  · intro e hd
    exact LoadAAA_dirOpen_err hd
  · intro e hd hr
    exact LoadAAA_readdir_err hd hr
  · intro files hd hr
    exact ⟨_, by rw [LoadAAA_eq hd hr]⟩

/-- Witness for C4: an unopenable directory, an unenumerable directory, and
a directory whose only plugin fails (the load still succeeds). -/
theorem C4_witness :
    LoadAAA envBadDir =
      (Except.error ("open /etc/aaa-plugins/: no such file or directory"), []) ∧
    LoadAAA envBadList = (Except.error ("readdirent: input/output error"), []) ∧
    ∃ aaa, (LoadAAA envNoSyms).1 = Except.ok aaa :=
  ⟨(C4_directory_failure_fatal envBadDir).1 _ rfl,
   (C4_directory_failure_fatal envBadList).2.1 _ rfl rfl,
   (C4_directory_failure_fatal envNoSyms).2.2 _ rfl rfl⟩

/-- C5: a plugin whose version symbol differs from the host-supported ABI
version (older or newer) is rejected: `loadAAAPlugin` yields the
version-mismatch error carrying both the plugin's version and the expected
one (its message names both), the error is logged while the load operation
still returns a registry, and no protocol exists under that descriptor's
declared name. -/
theorem C5_version_mismatch_rejected (env : Env) (files : List FileInfo)
    (f : FileInfo) (cfg : AAAPluginConfig) (p : PluginModule) (v : Nat)
    (hd : env.dirOpen = Except.ok ()) (hr : env.readdir = Except.ok files)
    (hf : f ∈ files) (hreg : f.isRegular = true)
    (hext : filepathExt f.name = ".json")
    (hcfg : env.cfgRead (AAAPluginsCfgDir ++ f.name) = CfgRead.ok cfg)
    (hp : env.pluginOpen (AAAPluginsDir ++ cfg.name ++ ".so") = Except.ok p)
    (hv : p.lookup aaaPluginAPIVersionSym = some (SymVal.uint32Ptr v))
    (hne : v ≠ AAAPluginAPIVersion) :
    loadAAAPlugin env f.name =
      Except.error (LoadErr.versionMismatch cfg.name v AAAPluginAPIVersion) ∧
    (LoadErr.versionMismatch cfg.name v AAAPluginAPIVersion).message =
      "Unsupported AAAPluginAPIVersion for plugin " ++ cfg.name ++ ": "
        ++ Nat.repr v ++ ", expected " ++ Nat.repr AAAPluginAPIVersion ∧
    ∃ aaa, (LoadAAA env).1 = Except.ok aaa ∧
      LogEntry.loadErr
          (LoadErr.versionMismatch cfg.name v AAAPluginAPIVersion)
        ∈ (LoadAAA env).2 ∧
      findProto aaa.protocols cfg.name = none := by
  have herr : loadAAAPlugin env f.name =
      Except.error (LoadErr.versionMismatch cfg.name v AAAPluginAPIVersion) :=
    loadAAAPlugin_err_of hcfg hp (lookupPluginImpl_mismatch hv hne)
  have hload : (LoadAAA env).1 =
      Except.ok (AAA.mk ((files.foldl (loadStep env) ([], [])).1)) := by
    rw [LoadAAA_eq hd hr]
  refine ⟨herr, rfl, AAA.mk ((files.foldl (loadStep env) ([], [])).1),
    hload, ?_, ?_⟩
  · rw [LoadAAA_eq hd hr]
    exact fold_log_of_loadErr hf hreg hext herr ([], [])
  · apply findProto_none_of_resolver_fail hload hp
    intro a hc
    rw [lookupPluginImpl_mismatch hv hne] at hc
    cases hc

/-- Witness for C5: in `envMismatch` one plugin is built against version 1
(one below the host's) and one against version 3 (one above). -/
theorem C5_witness :
    (loadAAAPlugin envMismatch ("old.json") =
      Except.error
        (LoadErr.versionMismatch ("oldproto") 1 AAAPluginAPIVersion) ∧
    (LoadErr.versionMismatch ("oldproto") 1 AAAPluginAPIVersion).message =
      "Unsupported AAAPluginAPIVersion for plugin " ++ ("oldproto") ++ ": "
        ++ Nat.repr 1 ++ ", expected " ++ Nat.repr AAAPluginAPIVersion ∧
    ∃ aaa, (LoadAAA envMismatch).1 = Except.ok aaa ∧
      LogEntry.loadErr
          (LoadErr.versionMismatch ("oldproto") 1 AAAPluginAPIVersion)
        ∈ (LoadAAA envMismatch).2 ∧
      findProto aaa.protocols ("oldproto") = none) ∧
    (loadAAAPlugin envMismatch ("new.json") =
      Except.error
        (LoadErr.versionMismatch ("newproto") 3 AAAPluginAPIVersion) ∧
    (LoadErr.versionMismatch ("newproto") 3 AAAPluginAPIVersion).message =
      "Unsupported AAAPluginAPIVersion for plugin " ++ ("newproto") ++ ": "
        ++ Nat.repr 3 ++ ", expected " ++ Nat.repr AAAPluginAPIVersion ∧
    ∃ aaa, (LoadAAA envMismatch).1 = Except.ok aaa ∧
      LogEntry.loadErr
          (LoadErr.versionMismatch ("newproto") 3 AAAPluginAPIVersion)
        ∈ (LoadAAA envMismatch).2 ∧
      findProto aaa.protocols ("newproto") = none) :=
  ⟨C5_version_mismatch_rejected envMismatch [fiOld, fiNew, fiTac] fiOld
      cfgOld oldModule 1 rfl rfl (by decide) rfl rfl rfl rfl rfl (by decide),
   C5_version_mismatch_rejected envMismatch [fiOld, fiNew, fiTac] fiNew
      cfgNew newModule 3 rfl rfl (by decide) rfl rfl rfl rfl rfl (by decide)⟩

/-- C6: a module that lacks the fixed-name version symbol, or exposes it
with a type other than `*uint32`, makes the resolver yield the
"Unexpected type" error from the version symbol, and the protocol is absent
from the registry. -/
theorem C6_version_symbol_type_mismatch (env : Env) (files : List FileInfo)
    (f : FileInfo) (cfg : AAAPluginConfig) (p : PluginModule)
    (hd : env.dirOpen = Except.ok ()) (hr : env.readdir = Except.ok files)
    (hf : f ∈ files) (hreg : f.isRegular = true)
    (hext : filepathExt f.name = ".json")
    (hcfg : env.cfgRead (AAAPluginsCfgDir ++ f.name) = CfgRead.ok cfg)
    (hp : env.pluginOpen (AAAPluginsDir ++ cfg.name ++ ".so") = Except.ok p)
    (hnv : ∀ v, p.lookup aaaPluginAPIVersionSym ≠ some (SymVal.uint32Ptr v)) :
    loadAAAPlugin env f.name = Except.error LoadErr.versionSymTypeMismatch ∧
    LoadErr.versionSymTypeMismatch.message =
      "Unexpected type from AAAPluginAPIVersion symbol" ∧
    ∃ aaa, (LoadAAA env).1 = Except.ok aaa ∧
      LogEntry.loadErr LoadErr.versionSymTypeMismatch ∈ (LoadAAA env).2 ∧
      findProto aaa.protocols cfg.name = none := by
  have herr : loadAAAPlugin env f.name =
      Except.error LoadErr.versionSymTypeMismatch :=
    loadAAAPlugin_err_of hcfg hp (lookupPluginImpl_noVersionSym hnv)
  have hload : (LoadAAA env).1 =
      Except.ok (AAA.mk ((files.foldl (loadStep env) ([], [])).1)) := by
    rw [LoadAAA_eq hd hr]
  refine ⟨herr, rfl, AAA.mk ((files.foldl (loadStep env) ([], [])).1),
    hload, ?_, ?_⟩
  · rw [LoadAAA_eq hd hr]
    exact fold_log_of_loadErr hf hreg hext herr ([], [])
  · apply findProto_none_of_resolver_fail hload hp
    intro a hc
    rw [lookupPluginImpl_noVersionSym hnv] at hc
    cases hc

/-- Witness for C6: the symbol-less module of `envNoSyms`. -/
theorem C6_witness :
    loadAAAPlugin envNoSyms ("miss.json") =
      Except.error LoadErr.versionSymTypeMismatch ∧
    LoadErr.versionSymTypeMismatch.message =
      "Unexpected type from AAAPluginAPIVersion symbol" ∧
    ∃ aaa, (LoadAAA envNoSyms).1 = Except.ok aaa ∧
      LogEntry.loadErr LoadErr.versionSymTypeMismatch ∈ (LoadAAA envNoSyms).2 ∧
      findProto aaa.protocols ("nosyms") = none :=
  C6_version_symbol_type_mismatch envNoSyms [fiMiss] fiMiss cfgMiss
    emptyModule rfl rfl (List.mem_singleton.mpr rfl) rfl rfl rfl rfl
    (fun v hv => by simp [emptyModule] at hv)

/-- C7 is refuted as literally stated: a module that lacks the version
symbol altogether is reported with the type-mismatch error
("Unexpected type from AAAPluginAPIVersion symbol"), not with a
symbol-missing error — the resolver never checks the version-symbol lookup
error, so absence flows into the failing type assertion. -/
theorem C7_counterexample :
    emptyModule.lookup aaaPluginAPIVersionSym = none ∧
    lookupPluginImpl ("x") emptyModule AAAPluginAPIVersion =
      Except.error LoadErr.versionSymTypeMismatch ∧
    LoadErr.versionSymTypeMismatch.message =
      "Unexpected type from AAAPluginAPIVersion symbol" ∧
    LoadErr.versionSymTypeMismatch ≠
      LoadErr.implSymMissing AAAPluginAPIVersion :=
  ⟨rfl, rfl, rfl, by decide⟩

/-- C7 (amended): for every failing resolution of a decoded descriptor to an
implementation, the error identifies exactly which step failed — module open
failure, version-symbol type mismatch (which also covers a missing version
symbol), version mismatch, entry-point symbol missing, or entry-point type
mismatch.  A missing entry-point symbol is reported as symbol-missing,
distinct from a type mismatch; a missing version symbol is reported as a
type mismatch. -/
theorem C7_error_identifies_step (env : Env) (fn : String)
    (cfg : AAAPluginConfig) (e : LoadErr)
    (hcfg : env.cfgRead (AAAPluginsCfgDir ++ fn) = CfgRead.ok cfg)
    (h : loadAAAPlugin env fn = Except.error e) :
    (∃ m, e = LoadErr.pluginOpenFailed m ∧
      env.pluginOpen (AAAPluginsDir ++ cfg.name ++ ".so") =
        Except.error m) ∨
    (∃ p, env.pluginOpen (AAAPluginsDir ++ cfg.name ++ ".so") =
        Except.ok p ∧
      ((e = LoadErr.versionSymTypeMismatch ∧
        ∀ v, p.lookup aaaPluginAPIVersionSym ≠
          some (SymVal.uint32Ptr v)) ∨
       (∃ v, e = LoadErr.versionMismatch cfg.name v AAAPluginAPIVersion ∧
        p.lookup aaaPluginAPIVersionSym = some (SymVal.uint32Ptr v) ∧
        v ≠ AAAPluginAPIVersion) ∨
       (e = LoadErr.implSymMissing AAAPluginAPIVersion ∧
        p.lookup aaaPluginAPIVersionSym =
          some (SymVal.uint32Ptr AAAPluginAPIVersion) ∧
        p.lookup (aaaPluginImplSym AAAPluginAPIVersion) = none) ∨
       (e = LoadErr.implSymTypeMismatch AAAPluginAPIVersion ∧
        p.lookup aaaPluginAPIVersionSym =
          some (SymVal.uint32Ptr AAAPluginAPIVersion) ∧
        ∃ sv, p.lookup (aaaPluginImplSym AAAPluginAPIVersion) = some sv ∧
          ∀ a, sv ≠ SymVal.impl a))) := by
  unfold loadAAAPlugin at h
  rw [hcfg] at h
  dsimp only at h
  cases hpo : env.pluginOpen (AAAPluginsDir ++ cfg.name ++ ".so") with
  | error m =>
    rw [hpo] at h
    dsimp only at h
    injection h with h2
    exact Or.inl ⟨m, h2.symm, rfl⟩
  | ok p =>
    rw [hpo] at h
    dsimp only at h
    cases hli : lookupPluginImpl cfg.name p AAAPluginAPIVersion with
    | ok a =>
      rw [hli] at h
      dsimp only at h
      exact absurd h (by simp)
    | error e0 =>
      rw [hli] at h
      dsimp only at h
      injection h with h2
      subst h2
      exact Or.inr ⟨p, rfl, lookupPluginImpl_err_inv hli⟩

/-- Witness for C7 (amended) at the symbol-less module of `envNoSyms`. -/
theorem C7_witness :
    (∃ m, LoadErr.versionSymTypeMismatch = LoadErr.pluginOpenFailed m ∧
      envNoSyms.pluginOpen (AAAPluginsDir ++ cfgMiss.name ++ ".so") =
        Except.error m) ∨
    (∃ p, envNoSyms.pluginOpen (AAAPluginsDir ++ cfgMiss.name ++ ".so") =
        Except.ok p ∧
      ((LoadErr.versionSymTypeMismatch = LoadErr.versionSymTypeMismatch ∧
        ∀ v, p.lookup aaaPluginAPIVersionSym ≠
          some (SymVal.uint32Ptr v)) ∨
       (∃ v, LoadErr.versionSymTypeMismatch =
          LoadErr.versionMismatch cfgMiss.name v AAAPluginAPIVersion ∧
        p.lookup aaaPluginAPIVersionSym = some (SymVal.uint32Ptr v) ∧
        v ≠ AAAPluginAPIVersion) ∨
       (LoadErr.versionSymTypeMismatch =
          LoadErr.implSymMissing AAAPluginAPIVersion ∧
        p.lookup aaaPluginAPIVersionSym =
          some (SymVal.uint32Ptr AAAPluginAPIVersion) ∧
        p.lookup (aaaPluginImplSym AAAPluginAPIVersion) = none) ∨
       (LoadErr.versionSymTypeMismatch =
          LoadErr.implSymTypeMismatch AAAPluginAPIVersion ∧
        p.lookup aaaPluginAPIVersionSym =
          some (SymVal.uint32Ptr AAAPluginAPIVersion) ∧
        ∃ sv, p.lookup (aaaPluginImplSym AAAPluginAPIVersion) = some sv ∧
          ∀ a, sv ≠ SymVal.impl a))) :=
  C7_error_identifies_step envNoSyms ("miss.json") cfgMiss
    LoadErr.versionSymTypeMismatch rfl rfl

/-- C8: when two descriptors in the directory declare the same name and both
load and set up successfully — and no file processed after the second stores
that name again — the final registry holds exactly one entry for that name:
the protocol of the descriptor processed last. -/
theorem C8_duplicate_name_last_wins (env : Env) (s t u : List FileInfo)
    (f1 f2 : FileInfo) (n : String) (p1 p2 : AAAProtocol)
    (hd : env.dirOpen = Except.ok ())
    (hr : env.readdir = Except.ok (s ++ f1 :: t ++ f2 :: u))
    (h1reg : f1.isRegular = true) (h1ext : filepathExt f1.name = ".json")
    (h1ok : loadAAAPlugin env f1.name = Except.ok (n, p1))
    (h1set : p1.plugin.setupResult = SetupOutcome.ok)
    (h2reg : f2.isRegular = true) (h2ext : filepathExt f2.name = ".json")
    (h2ok : loadAAAPlugin env f2.name = Except.ok (n, p2))
    (h2set : p2.plugin.setupResult = SetupOutcome.ok)
    (hlater : ∀ g ∈ u, insertsName env g n = false) :
    ∃ aaa, (LoadAAA env).1 = Except.ok aaa ∧
      findProto aaa.protocols n = some p2 ∧
      aaa.protocols.countP (fun x => x.1 = n) = 1 := by
  have h2cp : catchPanicErrorOnly p2.plugin.setupResult = none := by
    rw [h2set]
    rfl
  have hfind : findProto
      (((s ++ f1 :: t ++ f2 :: u)).foldl (loadStep env) ([], [])).1 n =
      some p2 := by
    rw [List.foldl_append, List.foldl_cons, List.foldl_append,
      List.foldl_cons, fold_findProto_of_not_inserts hlater,
      loadStep_insert h2reg h2ext h2ok h2cp]
    exact findProto_mapInsert_self _ n p2
  refine ⟨AAA.mk
      ((((s ++ f1 :: t ++ f2 :: u)).foldl (loadStep env) ([], [])).1),
    by rw [LoadAAA_eq hd hr], hfind, ?_⟩
  exact countP_key_eq_one (fold_keys_nodup (by simp)) hfind

/-- Witness for C8: the two same-name descriptors of `envDup`. -/
theorem C8_witness :
    ∃ aaa, (LoadAAA envDup).1 = Except.ok aaa ∧
      findProto aaa.protocols ("dup") = some protoDupB ∧
      aaa.protocols.countP (fun x => x.1 = ("dup" : String)) = 1 :=
  C8_duplicate_name_last_wins envDup [] [] [] fiDupA fiDupB ("dup")
    protoDupA protoDupB rfl rfl rfl rfl rfl rfl rfl rfl rfl rfl
    (fun g hg => absurd hg (List.not_mem_nil g))

/-- C9: loading twice against an unchanged directory and plugin set (the
same environment) yields registries with identical key sets and identical
decoded config values for each key. -/
theorem C9_load_idempotent (env : Env) (aaa1 aaa2 : AAA)
    (h1 : (LoadAAA env).1 = Except.ok aaa1)
    (h2 : (LoadAAA env).1 = Except.ok aaa2) :
    aaa1.protocols.map Prod.fst = aaa2.protocols.map Prod.fst ∧
    ∀ k, (findProto aaa1.protocols k).map AAAProtocol.cfg =
      (findProto aaa2.protocols k).map AAAProtocol.cfg := by
  have h3 : Except.ok aaa1 = Except.ok aaa2 := h1.symm.trans h2
  injection h3 with h4
  subst h4
  exact ⟨rfl, fun k => rfl⟩

/-- Witness for C9 at the `envGood` load pass. -/
theorem C9_witness :
    (AAA.mk [(("tacplus" : String), protoTac)]).protocols.map Prod.fst =
      (AAA.mk [(("tacplus" : String), protoTac)]).protocols.map Prod.fst ∧
    (findProto (AAA.mk [(("tacplus" : String), protoTac)]).protocols
        ("tacplus")).map AAAProtocol.cfg =
      (findProto (AAA.mk [(("tacplus" : String), protoTac)]).protocols
        ("tacplus")).map AAAProtocol.cfg :=
  ⟨(C9_load_idempotent envGood (AAA.mk [(("tacplus" : String), protoTac)])
      (AAA.mk [(("tacplus" : String), protoTac)]) rfl rfl).1,
   (C9_load_idempotent envGood (AAA.mk [(("tacplus" : String), protoTac)])
      (AAA.mk [(("tacplus" : String), protoTac)]) rfl rfl).2 ("tacplus")⟩

/-- C10: a readable config directory containing no regular `.json` file
loads successfully into a registry whose (non-nil) protocol map is empty,
with no diagnostics emitted for the ignored entries. -/
theorem C10_no_descriptors_empty_registry (env : Env) (files : List FileInfo)
    (hd : env.dirOpen = Except.ok ()) (hr : env.readdir = Except.ok files)
    (h : ∀ f ∈ files, f.isRegular = false ∨ filepathExt f.name ≠ ".json") :
    LoadAAA env = (Except.ok { protocols := [] }, []) := by
  rw [LoadAAA_eq hd hr, fold_skip_all h]

/-- Witness for C10: a directory with a regular non-JSON file, a non-regular
entry, and a non-regular `.json` entry. -/
theorem C10_witness :
    LoadAAA envNoPlugins = (Except.ok { protocols := [] }, []) :=
  C10_no_descriptors_empty_registry envNoPlugins
    [{ name := "README.txt", isRegular := true },
     { name := "subdir", isRegular := false },
     { name := "backup.json", isRegular := false }] rfl rfl (by decide)

end DanosAAA
